import Mathlib

/-!
Shallow embedding of `scripts/generate-llms-txt.js`.

The script reads a hard-coded ordered manifest `STRUCTURE` of relative paths,
resolves each against the project root (`join(ROOT, file)`, modelled as
`root ++ "/" ++ file` since every manifest entry is a plain relative path with
no `..` or separators needing normalisation), reads each file (any read
failure is caught and turned into a warning), concatenates the successful
reads into delimited sections under a fixed header with a table of contents,
and overwrites `public/llms.txt` with the result.

The file system is modelled as a function `String → Option String` from
absolute paths to contents, `none` standing for any read failure (missing
file, permission error, ...), matching the catch-all `try/catch` in the loop.
-/

set_option maxRecDepth 40000

namespace LlmsTxt

/-- The hard-coded manifest from the script (lines 8–51), in source order. -/
def STRUCTURE : List String :=
  [ "stack-overview.md",
    "version-requirements.md",
    "new-project-checklist.md",
    "production-checklist.md",
    "project-structure.md",
    "dependencies.md",
    "scripts.md",
    "ruler.md",
    "integrations/clerk-auth.md",
    "integrations/drizzle-neon.md",
    "integrations/trpc.md",
    "integrations/env-validation.md",
    "integrations/zustand.md",
    "integrations/forms.md",
    "integrations/resend-email.md",
    "integrations/openrouter.md",
    "integrations/fal-ai.md",
    "integrations/voyage-embeddings.md",
    "integrations/uploadthing.md",
    "integrations/biome-ultracite.md",
    "rules/code-style.md",
    "rules/typescript.md",
    "rules/react.md",
    "rules/nextjs.md",
    "rules/tailwind.md",
    "rules/git.md",
    "rules/testing.md",
    "rules/env.md",
    "rules/turborepo.md",
    "rules/integrations.md",
    "rules/interface/typography.md",
    "rules/interface/animation.md",
    "rules/interface/forms.md",
    "rules/interface/interactions.md",
    "rules/interface/layout.md",
    "rules/interface/design.md",
    "rules/interface/performance.md",
    "rules/interface/content-accessibility.md" ]

/-- `join(ROOT, file)` for the plain relative paths used here. -/
def resolve (root f : String) : String := root ++ "/" ++ f

/-- `OUTPUT = join(ROOT, "public", "llms.txt")` (line 5). -/
def OUTPUT (root : String) : String := resolve root "public/llms.txt"

/-- The table-of-contents bullet lines: `STRUCTURE.map((f) => `- ${f}`)` (line 61). -/
def tocLines : List String := STRUCTURE.map (fun f => "- " ++ f)

/-- The fixed text of the header template before the interpolated TOC (lines 54–60). -/
def headerText : String :=
  "# Build — Stack Reference\n> How Daniel Howells builds software. Personal development reference distilled from 15 active projects.\n> Source: https://github.com/howells/docs\n> Website: https://build.danielhowells.com\n\n## Table of Contents\n\n"

/-- The full header template literal (lines 54–65): fixed text, the TOC bullets
joined by newlines, then a blank line, the `---` separator and a blank line. -/
def header : String :=
  headerText ++ String.intercalate "\n" tocLines ++ "\n\n---\n\n"

/-- `"=".repeat(80)`: the 80-character `=` rule used as section delimiter. -/
def eqRule : String := String.mk (List.replicate 80 '=')

/-- One body section (line 73): blank line, `=`-rule, `## <path>` heading,
`=`-rule, blank line, then the raw file content. -/
def sectionFor (f c : String) : String :=
  "\n\n" ++ eqRule ++ "\n## " ++ f ++ "\n" ++ eqRule ++ "\n\n" ++ c

/-- Reading a manifest entry: `readFile(join(ROOT, file), "utf-8")` (line 72),
with `none` for any read failure. -/
def readRel (root : String) (fs : String → Option String) (f : String) : Option String :=
  fs (resolve root f)

/-- The (path, content) pairs the loop (lines 69–77) successfully reads, in
manifest order: entries whose read fails are skipped. -/
def includedOf (g : String → Option String) (l : List String) : List (String × String) :=
  l.filterMap (fun f => (g f).map (fun c => (f, c)))

/-- The successful reads of a run over the hard-coded manifest. -/
def included (root : String) (fs : String → Option String) : List (String × String) :=
  includedOf (readRel root fs) STRUCTURE

/-- The `sections` array after the loop: one section string per successful read. -/
def sections (root : String) (fs : String → Option String) : List String :=
  (included root fs).map (fun p => sectionFor p.1 p.2)

/-- `output = header + sections.join("")` (line 79). -/
def output (root : String) (fs : String → Option String) : String :=
  header ++ String.join (sections root fs)

/-- The warning printed for a failed read (line 75). -/
def warningFor (f : String) : String := "Warning: " ++ f ++ " not found, skipping"

/-- The warnings a run emits, in manifest order: one per failed read. -/
def warnings (root : String) (fs : String → Option String) : List String :=
  (STRUCTURE.filter (fun f => (readRel root fs f).isNone)).map warningFor

/-- The file-system state after `writeFile(OUTPUT, output, "utf-8")` (line 81):
the output path is fully overwritten, nothing else changes. -/
def run (root : String) (fs : String → Option String) : String → Option String :=
  fun p => if p = OUTPUT root then some (output root fs) else fs p

/-- UTF-16 code units a character occupies in a JS string (`String.length` counts these). -/
def utf16Size (c : Char) : Nat := if c.toNat < 65536 then 1 else 2

/-- Bytes a character occupies in the UTF-8 encoding actually written to disk. -/
def utf8Size (c : Char) : Nat :=
  if c.toNat < 128 then 1
  else if c.toNat < 2048 then 2
  else if c.toNat < 65536 then 3
  else 4

/-- JS `output.length`: the string length in UTF-16 code units. -/
def utf16Len (s : String) : Nat := (s.data.map utf16Size).sum

/-- The byte length of the UTF-8 file written to disk. -/
def utf8Len (s : String) : Nat := (s.data.map utf8Size).sum

/-- Whether a string contains a non-ASCII character. -/
def hasNonAscii (s : String) : Bool := s.data.any (fun c => 128 ≤ c.toNat)

/-- `(n / 1024).toFixed(1)` in tenths of a KB: `n / 1024` is exactly
representable as a double (`n * 2 ^ -10`), and `toFixed(1)` rounds the exact
value to the nearest tenth, half away from zero. -/
def reportedTenths (n : Nat) : Nat := (20 * n + 1024) / 2048

/-- Render a tenths count the way `toFixed(1)` does: one decimal digit. -/
def tenthsStr (t : Nat) : String := toString (t / 10) ++ "." ++ toString (t % 10)

/-- The success log line (line 82): the size figure is computed from the JS
string length (UTF-16 code units), not from the UTF-8 byte count written. -/
def logLine (root : String) (fs : String → Option String) : String :=
  "Generated " ++ OUTPUT root ++ " (" ++ tenthsStr (reportedTenths (utf16Len (output root fs))) ++ " KB)"

/-- Result of `generate()` when the final `writeFile` may fail with error `e`
(modelled by the parameter `werr`): per-file read errors are caught inside the
loop, but nothing catches a write failure, so it escapes `generate` as a
rejection. On success the new file-system state and the log line are produced. -/
def generateResult (root : String) (fs : String → Option String) (werr : Option String) :
    Except String ((String → Option String) × String) :=
  match werr with
  | some e => Except.error e
  | none => Except.ok (run root fs, logLine root fs)

/-- Observable outcome of one whole process run. -/
structure RunOutcome where
  finalFs : String → Option String
  logs : List String
  exitNonZero : Bool

/-- `generate().catch(console.error)` (line 85): a rejection from `generate`
is passed to `console.error` and thereby handled, so the process terminates
normally (exit code 0) either way; the warnings precede the final log entry. -/
def topLevel (root : String) (fs : String → Option String) (werr : Option String) : RunOutcome :=
  match generateResult root fs werr with
  | Except.ok (fs2, log) => ⟨fs2, warnings root fs ++ [log], false⟩
  | Except.error e => ⟨fs, warnings root fs ++ [e], false⟩

/-- A concrete one-readable-file file system used as a test input: under root
`"r"`, `stack-overview.md` contains `Hello` and every other path fails to read. -/
def fsHello : String → Option String :=
  fun p => if p = "r/stack-overview.md" then some "Hello" else none

/-! ## General lemmas about the loop -/

theorem includedOf_map_fst (g : String → Option String) (l : List String) :
    (includedOf g l).map Prod.fst = l.filter (fun f => (g f).isSome) := by
  induction l with
  | nil => rfl
  | cons x xs ih =>
    cases hx : g x <;>
      simp [includedOf, List.filterMap_cons, hx, List.filter_cons] <;>
      simpa [includedOf] using ih

theorem mem_includedOf_iff (g : String → Option String) (l : List String) (f c : String) :
    (f, c) ∈ includedOf g l ↔ f ∈ l ∧ g f = some c := by
  simp only [includedOf, List.mem_filterMap, Option.map_eq_some']
  constructor
  · rintro ⟨a, ha, ca, hca, heq⟩
    obtain ⟨rfl, rfl⟩ := Prod.mk.injEq .. ▸ heq
    exact ⟨ha, hca⟩
  · rintro ⟨hf, hc⟩
    exact ⟨f, hf, c, hc, rfl⟩

theorem includedOf_filter_of_not_mem (g : String → Option String) (l : List String)
    (f : String) (h : f ∉ l) :
    (includedOf g l).filter (fun p => p.1 == f) = [] := by
  induction l with
  | nil => rfl
  | cons x xs ih =>
    have hx : ¬ (x == f) = true := by
      simp only [beq_iff_eq]
      rintro rfl
      exact h (List.mem_cons_self _ _)
    have h2 : f ∉ xs := fun hm => h (List.mem_cons_of_mem _ hm)
    cases hgx : g x <;>
      simp [includedOf, List.filterMap_cons, hgx, List.filter_cons, hx] <;>
      simpa [includedOf] using ih h2

theorem includedOf_filter_single (g : String → Option String) (l : List String)
    (f c : String) (hnd : l.Nodup) (hf : f ∈ l) (hc : g f = some c) :
    (includedOf g l).filter (fun p => p.1 == f) = [(f, c)] := by
  induction l with
  | nil => cases hf
  | cons x xs ih =>
    rcases List.mem_cons.mp hf with rfl | hmem
    · have hnotin : f ∉ xs := (List.nodup_cons.mp hnd).1
      have hrest := includedOf_filter_of_not_mem g xs f hnotin
      simp only [includedOf, List.filterMap_cons, hc, Option.map_some'] at hrest ⊢
      rw [List.filter_cons]
      simp [hrest]
    · have hx : ¬ (x == f) = true := by
        simp only [beq_iff_eq]
        rintro rfl
        exact (List.nodup_cons.mp hnd).1 hmem
      have hnd2 := (List.nodup_cons.mp hnd).2
      have ih2 := ih hnd2 hmem
      simp only [includedOf] at ih2 ⊢
      cases hgx : g x with
      | none =>
        simp only [List.filterMap_cons, hgx, Option.map_none']
        exact ih2
      | some cx =>
        simp only [List.filterMap_cons, hgx, Option.map_some']
        rw [List.filter_cons, if_neg (by simpa using hx)]
        exact ih2

theorem includedOf_congr (g1 g2 : String → Option String) (l : List String)
    (h : ∀ f ∈ l, g1 f = g2 f) : includedOf g1 l = includedOf g2 l := by
  induction l with
  | nil => rfl
  | cons x xs ih =>
    have hx := h x (List.mem_cons_self _ _)
    have ih2 := ih (fun f hf => h f (List.mem_cons_of_mem _ hf))
    simp only [includedOf, List.filterMap_cons] at ih2 ⊢
    rw [hx, ih2]

theorem includedOf_eq_nil (g : String → Option String) (l : List String)
    (h : ∀ f ∈ l, g f = none) : includedOf g l = [] := by
  induction l with
  | nil => rfl
  | cons x xs ih =>
    have hx := h x (List.mem_cons_self _ _)
    have ih2 := ih (fun f hf => h f (List.mem_cons_of_mem _ hf))
    simp only [includedOf] at ih2 ⊢
    simp [List.filterMap_cons, hx, ih2]

/-! ## String facts -/

theorem string_data_inj {a b : String} (h : a.data = b.data) : a = b := by
  cases a
  cases b
  exact congrArg String.mk h

theorem resolve_injective (root : String) {a b : String}
    (h : resolve root a = resolve root b) : a = b := by
  unfold resolve at h
  have hd := congrArg String.data h
  simp only [String.data_append] at hd
  exact string_data_inj (List.append_cancel_left hd)

theorem STRUCTURE_nodup : STRUCTURE.Nodup := by decide

theorem resolve_ne_OUTPUT (root f : String) (hf : f ∈ STRUCTURE) :
    resolve root f ≠ OUTPUT root := by
  intro h
  have hfeq : f = "public/llms.txt" := resolve_injective root h
  rw [hfeq] at hf
  exact absurd hf (by decide)

theorem warningFor_injective : Function.Injective warningFor := by
  intro a b h
  unfold warningFor at h
  have hd := congrArg String.data h
  simp only [String.data_append] at hd
  exact string_data_inj (List.append_cancel_left (List.append_cancel_right hd))

theorem output_congr (root : String) (fs1 fs2 : String → Option String)
    (h : ∀ f ∈ STRUCTURE, readRel root fs1 f = readRel root fs2 f) :
    output root fs1 = output root fs2 := by
  unfold output sections included
  rw [includedOf_congr _ _ _ h]

/-! ## UTF-16 vs UTF-8 size facts -/

theorem utf16Size_le_utf8Size (c : Char) : utf16Size c ≤ utf8Size c := by
  unfold utf16Size utf8Size
  split_ifs <;> omega

theorem utf16Size_lt_utf8Size (c : Char) (h : 128 ≤ c.toNat) : utf16Size c < utf8Size c := by
  unfold utf16Size utf8Size
  split_ifs <;> omega

theorem sum_utf16_le_sum_utf8 (l : List Char) :
    (l.map utf16Size).sum ≤ (l.map utf8Size).sum := by
  induction l with
  | nil => simp
  | cons x xs ih =>
    simp only [List.map_cons, List.sum_cons]
    exact Nat.add_le_add (utf16Size_le_utf8Size x) ih

theorem sum_utf16_lt_sum_utf8 (l : List Char) (c : Char) (hc : c ∈ l) (hge : 128 ≤ c.toNat) :
    (l.map utf16Size).sum < (l.map utf8Size).sum := by
  induction l with
  | nil => cases hc
  | cons x xs ih =>
    simp only [List.map_cons, List.sum_cons]
    rcases List.mem_cons.mp hc with rfl | hmem
    · exact Nat.add_lt_add_of_lt_of_le (utf16Size_lt_utf8Size c hge) (sum_utf16_le_sum_utf8 xs)
    · exact Nat.add_lt_add_of_le_of_lt (utf16Size_le_utf8Size x) (ih hmem)

theorem utf16Len_lt_utf8Len (s : String) (h : hasNonAscii s = true) :
    utf16Len s < utf8Len s := by
  unfold hasNonAscii at h
  obtain ⟨c, hc, hge⟩ := List.any_eq_true.mp h
  exact sum_utf16_lt_sum_utf8 s.data c hc (of_decide_eq_true hge)

/-! ## Claims -/

/-- C1: for every manifest entry whose file is readable, the successful reads
contain exactly one pair headed by that entry, carrying the file content
verbatim; the output body is the concatenation of one section per successful
read, and a section is an 80-character rule of `=` characters, a `## <path>`
heading, another such rule, a blank line, then the raw content. -/
theorem c1_section_completeness (root : String) (fs : String → Option String)
    (f c : String) (hf : f ∈ STRUCTURE) (hc : readRel root fs f = some c) :
    ((included root fs).filter (fun p => p.1 == f)) = [(f, c)]
    ∧ output root fs = header ++ String.join ((included root fs).map (fun p => sectionFor p.1 p.2))
    ∧ sectionFor f c = "\n\n" ++ eqRule ++ "\n## " ++ f ++ "\n" ++ eqRule ++ "\n\n" ++ c
    ∧ eqRule.length = 80
    ∧ ∀ ch ∈ eqRule.data, ch = '=' :=
  ⟨includedOf_filter_single _ _ _ _ STRUCTURE_nodup hf hc, rfl, rfl, by decide, by decide⟩

/-- C1 witness: the concrete file system where only `stack-overview.md` is
readable (containing `Hello`) satisfies the hypotheses and the conclusion. -/
theorem c1_section_completeness_witness :
    ("stack-overview.md" ∈ STRUCTURE)
    ∧ readRel "r" fsHello "stack-overview.md" = some "Hello"
    ∧ (((included "r" fsHello).filter (fun p => p.1 == "stack-overview.md"))
        = [("stack-overview.md", "Hello")]
      ∧ output "r" fsHello
        = header ++ String.join ((included "r" fsHello).map (fun p => sectionFor p.1 p.2))
      ∧ sectionFor "stack-overview.md" "Hello"
        = "\n\n" ++ eqRule ++ "\n## " ++ "stack-overview.md" ++ "\n" ++ eqRule ++ "\n\n" ++ "Hello"
      ∧ eqRule.length = 80
      ∧ ∀ ch ∈ eqRule.data, ch = '=') :=
  ⟨by decide, rfl,
    c1_section_completeness "r" fsHello "stack-overview.md" "Hello" (by decide) rfl⟩

/-- C2: for every manifest (first conjunct: any list and any read function)
and every file-system state, the successful reads are the manifest entries
that were readable, in manifest order, and the body sections follow that
list one-to-one, so section order equals manifest order restricted to the
readable subset. -/
theorem c2_order_preservation :
    (∀ (g : String → Option String) (l : List String),
      (includedOf g l).map Prod.fst = l.filter (fun f => (g f).isSome))
    ∧ ∀ (root : String) (fs : String → Option String),
      (included root fs).map Prod.fst = STRUCTURE.filter (fun f => (readRel root fs f).isSome)
      ∧ sections root fs = (included root fs).map (fun p => sectionFor p.1 p.2) :=
  ⟨includedOf_map_fst, fun _ _ => ⟨includedOf_map_fst _ _, rfl⟩⟩

/-- C3: evaluation of the code at a failing input: with every manifest file
unreadable, no section is included and the body is empty, yet the written
output is the header, whose table of contents still carries one bullet per
manifest entry — e.g. `- stack-overview.md` — so an unreadable entry does
appear in the table of contents, contrary to the claimed invariant. -/
theorem c3_toc_lists_unreadable_entries :
    included "r" (fun _ => none) = []
    ∧ output "r" (fun _ => none) = header
    ∧ run "r" (fun _ => none) (OUTPUT "r") = some header
    ∧ header = headerText ++ String.intercalate "\n" tocLines ++ "\n\n---\n\n"
    ∧ tocLines = STRUCTURE.map (fun f => "- " ++ f)
    ∧ "- stack-overview.md" ∈ tocLines := by
  have hinc : included "r" (fun _ => none) = [] := rfl
  have hout : output "r" (fun _ => none) = header := by
    unfold output sections
    rw [hinc]
    show header ++ String.join [] = header
    exact String.append_empty header
  refine ⟨hinc, hout, ?_, rfl, rfl, by decide⟩
  unfold run
  rw [if_pos rfl, hout]

/-- C4: the output is the fixed header followed by the body: the header's data
is a prefix of the output's data for every file-system state, and the header
is the fixed text followed by the bullet list of the full manifest (one
`- <path>` line per manifest entry, readable or not) and the `---` separator. -/
theorem c4_header_stability (root : String) (fs : String → Option String) :
    output root fs = header ++ String.join (sections root fs)
    ∧ header.data <+: (output root fs).data
    ∧ header = headerText ++ String.intercalate "\n" tocLines ++ "\n\n---\n\n"
    ∧ tocLines = STRUCTURE.map (fun f => "- " ++ f) :=
  ⟨rfl, ⟨(String.join (sections root fs)).data, (String.data_append _ _).symm⟩, rfl, rfl⟩

/-- C5: one run is a pure function of the source files: re-running after a run
reads the same sources (the output path is not a manifest source), so the
second output is byte-identical and the file-system state is a fixed point —
the run is deterministic and idempotent, and the output never depends on the
prior contents of the output file, which is fully overwritten. -/
theorem c5_idempotent (root : String) (fs : String → Option String) :
    output root (run root fs) = output root fs
    ∧ run root (run root fs) = run root fs := by
  have hout : output root (run root fs) = output root fs := by
    apply output_congr
    intro f hf
    unfold readRel run
    rw [if_neg (resolve_ne_OUTPUT root f hf)]
  refine ⟨hout, ?_⟩
  funext p
  show (if p = OUTPUT root then some (output root (run root fs)) else run root fs p)
      = run root fs p
  by_cases hp : p = OUTPUT root
  · rw [if_pos hp, hout, hp]
    show some (output root fs)
        = if OUTPUT root = OUTPUT root then some (output root fs) else fs (OUTPUT root)
    rw [if_pos rfl]
  · rw [if_neg hp]

/-- C6: any read failure of a manifest entry is non-fatal: exactly one warning
`Warning: <file> not found, skipping` is emitted for it, its content appears
in no successful read, the output file is still written, and every other
readable entry's content is included unchanged. -/
theorem c6_read_failure_recoverable (root : String) (fs : String → Option String)
    (f : String) (hf : f ∈ STRUCTURE) (hnone : readRel root fs f = none) :
    (warnings root fs).count (warningFor f) = 1
    ∧ (∀ c, (f, c) ∉ included root fs)
    ∧ run root fs (OUTPUT root) = some (output root fs)
    ∧ (∀ g c, g ∈ STRUCTURE → readRel root fs g = some c → (g, c) ∈ included root fs) := by
  refine ⟨?_, ?_, ?_, ?_⟩
  · unfold warnings
    rw [List.count_map_of_injective _ warningFor warningFor_injective]
    apply List.count_eq_one_of_mem (STRUCTURE_nodup.filter _)
    rw [List.mem_filter]
    exact ⟨hf, by rw [hnone]; rfl⟩
  · intro c hc
    have := ((mem_includedOf_iff (readRel root fs) STRUCTURE f c).mp hc).2
    rw [hnone] at this
    cases this
  · unfold run
    rw [if_pos rfl]
  · intro g c hg hc
    exact (mem_includedOf_iff (readRel root fs) STRUCTURE g c).mpr ⟨hg, hc⟩

/-- C6 witness: under `fsHello`, `rules/git.md` fails to read, and the run
warns once about it, omits it, still writes, and keeps `stack-overview.md`. -/
theorem c6_read_failure_recoverable_witness :
    ("rules/git.md" ∈ STRUCTURE)
    ∧ readRel "r" fsHello "rules/git.md" = none
    ∧ ((warnings "r" fsHello).count (warningFor "rules/git.md") = 1
      ∧ (∀ c, ("rules/git.md", c) ∉ included "r" fsHello)
      ∧ run "r" fsHello (OUTPUT "r") = some (output "r" fsHello)
      ∧ (∀ g c, g ∈ STRUCTURE → readRel "r" fsHello g = some c
          → (g, c) ∈ included "r" fsHello)) :=
  ⟨by decide, rfl, c6_read_failure_recoverable "r" fsHello "rules/git.md" (by decide) rfl⟩

/-- C7 counterexample: when the final write fails, `generate().catch(console.error)`
handles the rejection — the error message is logged, but the process exit is
not non-zero and no error escapes, contrary to the claim's abort clause. -/
theorem c7_write_failure_counterexample :
    ¬ ((topLevel "r" fsHello (some "EACCES: permission denied")).exitNonZero = true) := by
  intro h
  cases h

/-- C7 amended: a write failure is not handled inside `generate` — it escapes
as the error of the whole generation — and the single top-level handler logs
it after the per-file warnings, leaving the file system unchanged; but because
the handler catches the rejection, the process terminates normally rather
than with a non-zero exit. -/
theorem c7_write_failure_amended (root : String) (fs : String → Option String) (e : String) :
    generateResult root fs (some e) = Except.error e
    ∧ topLevel root fs (some e) = ⟨fs, warnings root fs ++ [e], false⟩ :=
  ⟨rfl, rfl⟩

/-- C8: when every manifest entry fails to read, the run still writes the
output file, the output is exactly the fixed header block (the body is
empty), and one warning is emitted per manifest entry, in order. -/
theorem c8_all_unreadable (root : String) (fs : String → Option String)
    (h : ∀ f ∈ STRUCTURE, readRel root fs f = none) :
    output root fs = header
    ∧ run root fs (OUTPUT root) = some header
    ∧ warnings root fs = STRUCTURE.map warningFor := by
  have hinc : included root fs = [] := includedOf_eq_nil _ _ h
  have hout : output root fs = header := by
    unfold output sections
    rw [hinc]
    show header ++ String.join [] = header
    exact String.append_empty header
  refine ⟨hout, ?_, ?_⟩
  · unfold run
    rw [if_pos rfl, hout]
  · unfold warnings
    have hfil : STRUCTURE.filter (fun f => (readRel root fs f).isNone) = STRUCTURE := by
      rw [List.filter_eq_self]
      intro a ha
      rw [h a ha]
      rfl
    rw [hfil]

/-- C8 witness: the empty file system satisfies the hypothesis and yields the
header-only output, the successful write, and one warning per entry. -/
theorem c8_all_unreadable_witness :
    (∀ f ∈ STRUCTURE, readRel "r" (fun _ => none) f = none)
    ∧ (output "r" (fun _ => none) = header
      ∧ run "r" (fun _ => none) (OUTPUT "r") = some header
      ∧ warnings "r" (fun _ => none) = STRUCTURE.map warningFor) :=
  ⟨fun _ _ => rfl, c8_all_unreadable "r" (fun _ => none) (fun _ _ => rfl)⟩

/-- C9 counterexample: the hard-coded manifest has 38 entries, not 40. -/
theorem c9_manifest_size_counterexample :
    STRUCTURE.length = 38 ∧ ¬ STRUCTURE.length = 40 := by
  refine ⟨by decide, by decide⟩

/-- C9 amended: the generator performs no deduplication — each manifest
occurrence yields one table-of-contents bullet, and one body section when
readable — so exactly-one-section-per-file relies on the hard-coded manifest
being pairwise distinct, which it is: 38 distinct paths. -/
theorem c9_no_dedup_amended :
    STRUCTURE.Nodup
    ∧ STRUCTURE.length = 38
    ∧ tocLines = STRUCTURE.map (fun f => "- " ++ f)
    ∧ ∀ (root : String) (fs : String → Option String),
        (included root fs).map Prod.fst = STRUCTURE.filter (fun f => (readRel root fs f).isSome) :=
  ⟨STRUCTURE_nodup, by decide, rfl, fun _ _ => includedOf_map_fst _ _⟩

/-- C10 counterexample: with every source unreadable the output is the header
alone, which contains a non-ASCII character (the em dash of the title), has
UTF-16 length 1208 but UTF-8 byte length 1210; `toFixed(1)` rounds
`12080/1024 = 11.797` tenths up to 12, so the reported figure is `1.2` KB
while the file is `1210` bytes `= 1.18` KB: the reported figure equals the
byte-based figure after rounding and even exceeds the actual size, so it is
not smaller than the actual file size. -/
theorem c10_reported_size_counterexample :
    hasNonAscii (output "r" (fun _ => none)) = true
    ∧ reportedTenths (utf16Len (output "r" (fun _ => none)))
        = reportedTenths (utf8Len (output "r" (fun _ => none)))
    ∧ 10 * utf8Len (output "r" (fun _ => none))
        < 1024 * reportedTenths (utf16Len (output "r" (fun _ => none))) := by
  refine ⟨by decide, by decide, by decide⟩

/-- C10 amended: the size in the `Generated ... KB` message is computed from
the output string's length in UTF-16 code units divided by 1024 and rounded
to one decimal, not from the UTF-8 byte length written to disk; whenever the
output contains a non-ASCII character the UTF-16 length is strictly smaller
than the byte length, so the pre-rounding value underestimates the actual
size — though after rounding the printed figure can equal or exceed it. -/
theorem c10_reported_size_amended (root : String) (fs : String → Option String) :
    logLine root fs
      = "Generated " ++ OUTPUT root ++ " ("
        ++ tenthsStr (reportedTenths (utf16Len (output root fs))) ++ " KB)"
    ∧ (hasNonAscii (output root fs) = true
        → utf16Len (output root fs) < utf8Len (output root fs)) :=
  ⟨rfl, fun h => utf16Len_lt_utf8Len _ h⟩

/-- C10 witness: the output for `fsHello` contains the header's em dash, and
its UTF-16 length is strictly below its UTF-8 byte length. -/
theorem c10_reported_size_amended_witness :
    hasNonAscii (output "r" fsHello) = true
    ∧ utf16Len (output "r" fsHello) < utf8Len (output "r" fsHello) :=
  ⟨rfl, (c10_reported_size_amended "r" fsHello).2 rfl⟩

end LlmsTxt
